import Mathlib

/-!
Verification development for the CorTeX task store and dispatch layer

Shallow embedding of the Rust sources of the CorTeX system:
the Postgres-backed task store (backend.rs) and the ZeroMQ dispatch
stubs (client.rs).  The store is modelled as an explicit state value
(lists of table rows); each SQL statement is translated to a pure
state transformation implementing its semantics.  Failures of
individual statements (connection or server errors) are supplied by
explicit oracle parameters, since they are environment events; the
translation records, per operation, what the Rust code does on each
such failure (propagate an error, panic via unwrap, or degrade to an
empty result).

Floating point values (f64 statistics) are modelled as rationals; the
arithmetic the claims mention (percentage computation, rounding to two
decimals) is exact on the inputs involved.  Rust's f64 round
(half away from zero) agrees with rational rounding half up on the
nonnegative values arising here.

The data module of the repository (data.rs: TaskStatus and the entity
structs) is not among the provided sources; it is modelled from the
specification's status-code table and data-model section, and each
such definition carries a comment saying so.
-/

namespace Cortex

/-- Modelled from the spec: data.rs (absent from the sources) defines the
TaskStatus enumeration.  The specification's status table gives the closed
set of codes: 0 queued (TODO), positive claimed (here Limbo), -1 no problem,
-2 warning, -3 error, -4 fatal, -5 requeued by rerun (here Rerun).  Other
negative values are ephemeral rerun-selection tags; the bucketing function
from_raw maps them to the Rerun bucket, a modelling choice that no claim
depends on. -/
inductive TaskStatus where
  | TODO
  | Limbo
  | NoProblem
  | Warning
  | Error
  | Fatal
  | Rerun
deriving DecidableEq, Repr

/-- Modelled from the spec: the raw integer code of each status. -/
def TaskStatus.raw : TaskStatus → Int
  | .TODO => 0
  | .Limbo => 1
  | .NoProblem => -1
  | .Warning => -2
  | .Error => -3
  | .Fatal => -4
  | .Rerun => -5

/-- Modelled from the spec: bucketing of a raw status code into a status,
total on Int as the progress report requires. -/
def TaskStatus.from_raw (v : Int) : TaskStatus :=
  if v = 0 then .TODO
  else if v = -1 then .NoProblem
  else if v = -2 then .Warning
  else if v = -3 then .Error
  else if v = -4 then .Fatal
  else if 0 < v then .Limbo
  else .Rerun

/-- Modelled from the spec: the statistics key of each status. -/
def TaskStatus.to_key : TaskStatus → String
  | .TODO => "todo"
  | .Limbo => "limbo"
  | .NoProblem => "no_problem"
  | .Warning => "warning"
  | .Error => "error"
  | .Fatal => "fatal"
  | .Rerun => "rerun"

/-- Modelled from the spec: key-to-status lookup, used by the rerun and
report selectors for the terminal severity classes. -/
def TaskStatus.from_key (k : String) : TaskStatus :=
  if k = "no_problem" then .NoProblem
  else if k = "warning" then .Warning
  else if k = "error" then .Error
  else if k = "fatal" then .Fatal
  else if k = "limbo" then .Limbo
  else if k = "rerun" then .Rerun
  else .TODO

/-- Modelled from the spec: the list of statistics keys seeded into a
progress report. -/
def TaskStatus.keys : List String :=
  ["todo", "limbo", "no_problem", "warning", "error", "fatal", "rerun"]

/-- A row of the tasks table: taskid BIGSERIAL, serviceid, corpusid,
entry, status. -/
structure TaskRow where
  taskid : Int
  serviceid : Int
  corpusid : Int
  entry : String
  status : Int
deriving DecidableEq, Repr

/-- A row of the logs table (messageid elided: no operation reads it). -/
structure LogRow where
  taskid : Int
  severity : String
  category : String
  what : String
  details : String
deriving DecidableEq, Repr

/-- A row of the corpora table. -/
structure CorpusRow where
  corpusid : Int
  name : String
  path : String
  complex : Bool
deriving DecidableEq, Repr

/-- The task store: the durable database state the backend operates on. -/
structure TaskStoreState where
  tasks : List TaskRow
  logs : List LogRow
  corpora : List CorpusRow
deriving DecidableEq, Repr

/-- Modelled from the spec: the Corpus entity of data.rs. -/
structure Corpus where
  id : Option Int
  path : String
  name : String
  complex : Bool
deriving DecidableEq, Repr

/-- Modelled from the spec: the Service entity of data.rs (version is a
float in the source; rational here, unused by any operation modelled). -/
structure Service where
  id : Option Int
  name : String
  version : ℚ
  inputformat : String
  outputformat : String
  inputconverter : Option String
  complex : Bool
deriving DecidableEq, Repr

/-- Modelled from the spec: the Task entity of data.rs. -/
structure Task where
  id : Option Int
  entry : String
  serviceid : Int
  corpusid : Int
  status : Int
deriving DecidableEq, Repr

/-- Modelled from the spec: a structured diagnostic message. -/
structure LogMessage where
  taskid : Int
  severity : String
  category : String
  what : String
  details : String
deriving DecidableEq, Repr

/-- Modelled from the spec: a worker completion report. -/
structure TaskReport where
  task : Task
  status : TaskStatus
  messages : List LogMessage
deriving DecidableEq, Repr

/-- Outcome of running one prepared SQL statement against the server:
success, failure while preparing, or failure while executing the query.
Supplied to each operation as an oracle, one entry per syntactic
statement of the Rust source. -/
inductive SqlOutcome where
  | ok
  | prepareFail
  | queryFail
deriving DecidableEq, Repr

/-- Observable result of a mutating backend call: Ok return, an error
return (the Err branch of the Rust Result), or a thread panic from an
unwrap. -/
inductive OpStatus where
  | ok
  | dberr
  | panicked
deriving DecidableEq, Repr

/-! Section: fetch_tasks (backend.rs lines 298-318)

UPDATE tasks t SET status = mark FROM (SELECT * FROM tasks WHERE
serviceid = sid and status = 0 LIMIT lim FOR UPDATE) subt WHERE
t.taskid = subt.taskid RETURNING the updated rows.  The random u16 draw
of the source is the markDraw parameter (reduced mod 2^16). -/

/-- Claim/dispatch: fetch up to lim queued tasks for a service, tagging
them with the freshly drawn mark.  Returns the Err branch when the
statement fails, and an empty Ok result when the service has no id. -/
def fetch_tasks (st : TaskStoreState) (service : Service) (lim : Nat)
    (markDraw : Nat) (sql : SqlOutcome) :
    Except Unit (List Task) × TaskStoreState :=
  match service.id with
  | none => (.ok [], st)
  | some sid =>
    let mark : Int := ((markDraw % 65536 : Nat) : Int)
    match sql with
    | .prepareFail => (.error (), st)
    | .queryFail => (.error (), st)
    | .ok =>
      let selected := (st.tasks.filter fun t =>
        t.serviceid == sid && t.status == TaskStatus.TODO.raw).take lim
      let ids := selected.map (fun t => t.taskid)
      let tasks2 := st.tasks.map fun t =>
        if ids.contains t.taskid then { t with status := mark } else t
      let returned : List Task := selected.map fun t =>
        { id := some t.taskid, entry := t.entry, serviceid := t.serviceid,
          corpusid := t.corpusid, status := mark }
      (.ok returned, { st with tasks := tasks2 })

/-! Section: clear_limbo_tasks (backend.rs lines 322-325)

UPDATE tasks SET status = 0 WHERE status > -1 (TODO and NoProblem raw
codes respectively). -/

/-- Reset every task with status strictly above -1 back to queued. -/
def clear_limbo_tasks (st : TaskStoreState) (sqlOk : Bool) :
    Except Unit Unit × TaskStoreState :=
  if sqlOk then
    (.ok (), { st with tasks := st.tasks.map fun t =>
      if TaskStatus.NoProblem.raw < t.status
      then { t with status := TaskStatus.TODO.raw } else t })
  else (.error (), st)

/-! Section: mark_done (backend.rs lines 164-186)

One transaction over all reports: per report, UPDATE the task status to
the report's raw code, then INSERT one log row per message whose
severity is neither info nor status.  Statement failures inside the
loop unwrap (panic) and the unfinished transaction rolls back;
transaction begin or commit failures surface as Err.  Either way no
partial write is visible, which the single dbfail oracle captures. -/

/-- True when a message survives the info/status filter of mark_done. -/
def keptMessage (m : LogMessage) : Bool :=
  !(m.severity == "info" || m.severity == "status")

/-- The log rows one report inserts, in source order; the inserted
taskid is the report task's id (the message's own field is ignored, as
in the source's INSERT). -/
def reportLogRows (tid : Int) (r : TaskReport) : List LogRow :=
  (r.messages.filter keptMessage).map fun m =>
    { taskid := tid, severity := m.severity, category := m.category,
      what := m.what, details := m.details }

/-- The writes of a single report: none encodes the unwrap panic on a
missing task id. -/
def mark_done_report (st : TaskStoreState) (r : TaskReport) :
    Option TaskStoreState :=
  match r.task.id with
  | none => none
  | some tid =>
    let tasks2 := st.tasks.map fun t =>
      if t.taskid == tid then { t with status := r.status.raw } else t
    some { st with tasks := tasks2, logs := st.logs ++ reportLogRows tid r }

/-- The accumulated writes of the whole batch. -/
def mark_done_apply (st : TaskStoreState) : List TaskReport → Option TaskStoreState
  | [] => some st
  | r :: rs => match mark_done_report st r with
    | none => none
    | some st1 => mark_done_apply st1 rs

/-- Record a batch of completion reports.  dbfail covers any statement,
begin, or commit failure: the transaction rolls back and the caller
sees Err with the state unchanged. -/
def mark_done (st : TaskStoreState) (reports : List TaskReport)
    (dbfail : Bool) : OpStatus × TaskStoreState :=
  if dbfail then (.dberr, st)
  else match mark_done_apply st reports with
    | none => (.panicked, st)
    | some st2 => (.ok, st2)

/-! Section: mark_rerun (backend.rs lines 190-246)

Three separate autocommitted statements (no enclosing transaction):
tag the selected tasks with a fresh negative mark, delete the logs of
the tagged tasks of the pair, then flip the tagged tasks of the pair
to -5.  Both entity ids are unwrapped in the arguments of the first
statement, before anything reaches the server. -/

/-- The selection condition of the first rerun statement, per the
severity/category/what granularity of the source's match. -/
def rerunSelects (logs : List LogRow) (cid sid : Int)
    (severity category what : Option String) (t : TaskRow) : Bool :=
  t.corpusid == cid && t.serviceid == sid &&
    (match severity with
     | none => true
     | some sev =>
       match category with
       | none => t.status == (TaskStatus.from_key sev).raw
       | some cat =>
         match what with
         | none => logs.any fun l =>
             l.taskid == t.taskid && l.severity == sev && l.category == cat
         | some w => logs.any fun l =>
             l.taskid == t.taskid && l.severity == sev && l.category == cat
               && l.what == w)

/-- Phase 1: UPDATE tasks SET status = mark for the selected scope. -/
def mark_rerun_phase1 (st : TaskStoreState) (cid sid : Int)
    (severity category what : Option String) (mark : Int) : TaskStoreState :=
  { st with tasks := st.tasks.map fun t =>
      if rerunSelects st.logs cid sid severity category what t
      then { t with status := mark } else t }

/-- Phase 2: DELETE from logs USING tasks for tagged tasks of the pair. -/
def mark_rerun_phase2 (st : TaskStoreState) (cid sid : Int) (mark : Int) :
    TaskStoreState :=
  { st with logs := st.logs.filter fun l =>
      !(st.tasks.any fun t =>
        t.taskid == l.taskid && t.status == mark
          && t.corpusid == cid && t.serviceid == sid) }

/-- Phase 3: UPDATE tagged tasks of the pair to the requeued code -5. -/
def mark_rerun_phase3 (st : TaskStoreState) (cid sid : Int) (mark : Int) :
    TaskStoreState :=
  { st with tasks := st.tasks.map fun t =>
      if t.status == mark && t.corpusid == cid && t.serviceid == sid
      then { t with status := -5 } else t }

/-- Mark matching tasks for rerun.  ora n tells whether the n-th of the
three statements succeeds; a failing statement returns Err with the
writes of the earlier statements already committed (the source uses no
transaction here).  Missing ids panic before any statement runs. -/
def mark_rerun (st : TaskStoreState) (corpus : Corpus) (service : Service)
    (severity category what : Option String) (markDraw : Nat)
    (ora : Nat → Bool) : OpStatus × TaskStoreState :=
  match corpus.id, service.id with
  | some cid, some sid =>
    let mark : Int := -((markDraw % 65536 : Nat) : Int)
    if !ora 0 then (.dberr, st) else
    let st1 := mark_rerun_phase1 st cid sid severity category what mark
    if !ora 1 then (.dberr, st1) else
    let st2 := mark_rerun_phase2 st1 cid sid mark
    if !ora 2 then (.dberr, st2) else
    (.ok, mark_rerun_phase3 st2 cid sid mark)
  | _, _ => (.panicked, st)

/-! Section: Hash map model

HashMap of the Rust source, modelled as an association list with unique
keys; insert replaces an existing binding or appends, matching the
observable get/insert/entry behaviour (Rust's iteration order is
unspecified, and no claim depends on ordering). -/

/-- Lookup in the association-list model of a hash map. -/
def hmGet {α : Type} (m : List (String × α)) (k : String) : Option α :=
  match m with
  | [] => none
  | (k', v) :: rest => if k' = k then some v else hmGet rest k

/-- Insert (replace or append) in the hash map model. -/
def hmInsert {α : Type} (m : List (String × α)) (k : String) (v : α) :
    List (String × α) :=
  match m with
  | [] => [(k, v)]
  | (k', v') :: rest =>
    if k' = k then (k', v) :: rest else (k', v') :: hmInsert rest k v

/-- The entry(k).or_insert(0) += c idiom of the source. -/
def hmAddTo (m : List (String × ℚ)) (k : String) (c : ℚ) :
    List (String × ℚ) :=
  match m with
  | [] => [(k, c)]
  | (k', v) :: rest =>
    if k' = k then (k', v + c) :: rest else (k', v) :: hmAddTo rest k c

/-- The key list of the hash map model. -/
def hmKeys {α : Type} (m : List (String × α)) : List String :=
  m.map fun p => p.1

/-- Rounding to two decimals: the (v * 100.0).round() / 100.0 idiom of
the source, exact over the rationals.  Rust's f64 round (half away from
zero) agrees with rational rounding half up on nonnegative input. -/
def rnd2 (q : ℚ) : ℚ := ((round (q * 100) : ℤ) : ℚ) / 100

/-! Section: corpora (backend.rs lines 355-371) -/

/-- Modelled from the spec: Corpus::from_row on the corpusid, name,
path, complex columns. -/
def corpusFromRow (r : CorpusRow) : Corpus :=
  { id := some r.corpusid, name := r.name, path := r.path,
    complex := r.complex }

/-- List the available corpora, ordered by name; any statement failure
degrades to the empty vector. -/
def corpora (st : TaskStoreState) (sql : SqlOutcome) : List Corpus :=
  match sql with
  | .ok => ((st.corpora.insertionSort fun a b => a.name ≤ b.name).map corpusFromRow)
  | _ => []

/-! Section: progress_report (backend.rs lines 374-402, 524-542) -/

/-- The aux_stats_compute_percentages helper: with total floored at 1,
insert a two-decimal percentage entry for every key present when the
loop starts.  The source unwraps the total entry and each visited key;
both lookups are threaded through Option so a (never reached in the
callers) absence models the panic. -/
def aux_stats_compute_percentages (m : List (String × ℚ))
    (total_given : Option ℚ) : Option (List (String × ℚ)) := do
  let baseTotal ← match total_given with
    | none => hmGet m "total"
    | some t => pure t
  let total := max 1 baseTotal
  (hmKeys m).foldlM (fun acc k => do
    let v ← hmGet acc k
    pure (hmInsert acc (k ++ "_percent") (rnd2 (100 * (v / total))))) m

/-- The grouped rows of the progress query: one (status, count) row per
distinct status among the tasks of the pair, ordered by count
descending as in the source (the ordering does not affect the final
map). -/
def progress_rows (st : TaskStoreState) (sid cid : Int) :
    List (Int × Int) :=
  let matching := st.tasks.filter fun t =>
    t.serviceid == sid && t.corpusid == cid
  let rows := (matching.map fun t => t.status).dedup.map fun v =>
    (v, (Int.ofNat (matching.filter fun t => t.status == v).length))
  rows.insertionSort fun a b => b.2 ≤ a.2

/-- The seeded statistics map: every status key plus total, at zero. -/
def progress_seed : List (String × ℚ) :=
  hmInsert (TaskStatus.keys.foldl (fun m k => hmInsert m k 0) []) "total" 0

/-- Folding one grouped row into the statistics map: bump its status
bucket and the running total. -/
def progress_step (m : List (String × ℚ)) (row : Int × Int) :
    List (String × ℚ) :=
  hmAddTo (hmAddTo m (TaskStatus.from_raw row.1).to_key ((row.2 : ℚ)))
    "total" ((row.2 : ℚ))

/-- Progress report for a corpus/service pair.  A prepare failure skips
the query (zero counts); with the statement prepared, the query
arguments unwrap both ids (none models that panic) before a query
failure can manifest; a query failure again leaves zero counts. -/
def progress_report (st : TaskStoreState) (c : Corpus) (s : Service)
    (sql : SqlOutcome) : Option (List (String × ℚ)) :=
  match sql with
  | .prepareFail => aux_stats_compute_percentages progress_seed none
  | _ =>
    match s.id, c.id with
    | some sid, some cid =>
      match sql with
      | .queryFail => aux_stats_compute_percentages progress_seed none
      | _ =>
        aux_stats_compute_percentages
          ((progress_rows st sid cid).foldl progress_step progress_seed) none
    | _, _ => none

/-! Section: task_report (backend.rs lines 406-523, 543-576) -/

/-- Index of the last character of the list that is a dot with at least
one character before it and one after it; the capture position of the
greedy dot split in the entry-name regex. -/
def lastValidDot (b : List Char) : Option Nat :=
  (List.range b.length).foldl
    (fun acc k =>
      if b.getD k ' ' == '.' && decide (1 ≤ k) && decide (k + 1 < b.length)
      then some k else acc)
    none

/-- Index of the last slash with at least one character before it whose
tail admits a valid dot split; the match position of the greedy slash
in the entry-name regex. -/
def lastValidSlash (b : List Char) : Option Nat :=
  (List.range b.length).foldl
    (fun acc j =>
      if b.getD j ' ' == '/' && decide (1 ≤ j)
          && (lastValidDot (b.drop (j + 1))).isSome
      then some j else acc)
    none

/-- Model of replacing the anchored greedy pattern
dot-plus slash group dot-plus literal-dot dot-plus
by its capture group: strip the directory up to the last matching
slash and the extension from the last dot; when the whole string does
not match, the replacement returns the input unchanged. -/
def entry_name_of (s : String) : String :=
  let b := s.toList
  match lastValidSlash b with
  | none => s
  | some j =>
    let tl := b.drop (j + 1)
    match lastValidDot tl with
    | none => s
    | some k => String.mk (tl.take k)

/-- Entry map of the no-problem branch, inserts in source order. -/
def noProblemEntryMap (t : TaskRow) : List (String × String) :=
  let entry := t.entry.trimRight
  [("entry", entry), ("entry_name", entry_name_of entry),
   ("entry_taskid", toString t.taskid), ("details", "OK")]

/-- The task/log join rows of the drill-down queries: one pair per log
row of a matching task with the requested severity. -/
def joinPairs (st : TaskStoreState) (sid cid raw : Int) (sev : String) :
    List (TaskRow × LogRow) :=
  (st.tasks.filter fun t =>
    t.serviceid == sid && t.corpusid == cid && t.status == raw).flatMap
    fun t => (st.logs.filter fun l =>
      l.taskid == t.taskid && l.severity == sev).map fun l => (t, l)

/-- The join rows further narrowed to one category. -/
def joinPairsCat (st : TaskStoreState) (sid cid raw : Int)
    (sev cat : String) : List (TaskRow × LogRow) :=
  (joinPairs st sid cid raw sev).filter fun p => p.2.category == cat

/-- GROUP BY of the drill-down queries: for each distinct value of the
grouped field, the number of distinct tasks carrying it and the total
number of matching log rows, ordered by task count descending. -/
def groupField (pairs : List (TaskRow × LogRow))
    (field : LogRow → String) : List (String × Int × Int) :=
  let rows := ((pairs.map fun p => field p.2).dedup).map fun v =>
    let ps := pairs.filter fun p => field p.2 == v
    (v, (Int.ofNat ((ps.map fun p => p.1.taskid).dedup.length),
         Int.ofNat ps.length))
  rows.insertionSort fun a b => b.2.1 ≤ a.2.1

/-- The aux_task_rows_stats helper.  The f64 percentages are modelled
over the rationals; a zero denominator (impossible when the queries all
succeeded, since a grouped row implies a matching task and message)
yields 0 here where f64 would print a NaN or infinity; no claim
inspects these strings. -/
def aux_task_rows_stats (rows : List (String × Int × Int))
    (total_tasks total_messages : Int) : List (List (String × String)) :=
  let report := rows.map fun r =>
    [("name", r.1.trimRight),
     ("tasks", toString r.2.1),
     ("messages", toString r.2.2),
     ("tasks_percent", toString (rnd2 (100 * ((r.2.1 : ℚ) / (total_tasks : ℚ))))),
     ("messages_percent", toString (rnd2 (100 * ((r.2.2 : ℚ) / (total_messages : ℚ)))))]
  report ++ [[("name", "total"), ("tasks", toString total_tasks),
    ("tasks_percent", "100"), ("messages", toString total_messages),
    ("messages_percent", "100")]]

/-- Entry map of the leaf (severity, category, what) branch. -/
def leafEntryMap (p : TaskRow × LogRow) : List (String × String) :=
  let entry := p.1.entry.trimRight
  [("entry", entry), ("entry_name", entry_name_of entry),
   ("entry_taskid", toString p.1.taskid), ("details", p.2.details)]

/-- Task report at the requested granularity.  Statement oracle
indices, in source order: 0 the no-problem entry select; 1 the
total-task count whose prepare is unwrapped (prepare failure panics);
2 and 3 the category breakdown and its message count; 4 and 5 the what
breakdown and its message count; 6 the leaf entry select.  Ids are
unwrapped in the arguments of the first executed query of the chosen
branch; none is the panic result. -/
def task_report (st : TaskStoreState) (c : Corpus) (s : Service)
    (severity category what : Option String) (ora : Nat → SqlOutcome) :
    Option (List (List (String × String))) :=
  match severity with
  | none => some []
  | some severity_name =>
    let raw_status := (TaskStatus.from_key severity_name).raw
    if severity_name = "no_problem" then
      match ora 0 with
      | .prepareFail => some []
      | o0 =>
        match s.id, c.id with
        | some sid, some cid =>
          match o0 with
          | .queryFail => some []
          | _ =>
            some (((st.tasks.filter fun t =>
              t.serviceid == sid && t.corpusid == cid
                && t.status == raw_status).take 100).map noProblemEntryMap)
        | _, _ => none
    else
      match ora 1 with
      | .prepareFail => none
      | o1 =>
        match s.id, c.id with
        | some sid, some cid =>
          let total_tasks : Int := match o1 with
            | .queryFail => 0
            | _ => Int.ofNat (st.tasks.filter fun t =>
                t.serviceid == sid && t.corpusid == cid).length
          match category with
          | none =>
            match ora 2 with
            | .ok =>
              let category_rows :=
                groupField (joinPairs st sid cid raw_status severity_name)
                  (fun l => l.category)
              match ora 3 with
              | .ok =>
                let total_messages : Int :=
                  Int.ofNat (joinPairs st sid cid raw_status severity_name).length
                some (aux_task_rows_stats category_rows total_tasks total_messages)
              | _ => some []
            | _ => some []
          | some category_name =>
            match what with
            | none =>
              match ora 4 with
              | .ok =>
                let what_rows :=
                  groupField
                    (joinPairsCat st sid cid raw_status severity_name category_name)
                    (fun l => l.what)
                match ora 5 with
                | .ok =>
                  let total_messages : Int :=
                    Int.ofNat
                      (joinPairsCat st sid cid raw_status severity_name category_name).length
                  some (aux_task_rows_stats what_rows total_tasks total_messages)
                | _ => some []
              | _ => some []
            | some what_name =>
              match ora 6 with
              | .ok =>
                some ((((joinPairsCat st sid cid raw_status severity_name
                    category_name).filter fun p => p.2.what == what_name).take 100).map
                  leafEntryMap)
              | _ => some []
        | _, _ => none

/-! Section: Ventilator (client.rs lines 32-50)

The dispatch loop binds a reply socket and answers every request with
the decimal string of an incrementing request counter; it never
contacts the task store. -/

/-- The replies the ventilator loop sends for a finite prefix of the
request stream: the counter starts at 0 and is incremented before each
reply. -/
def ventilator_replies (requests : List String) : List String :=
  (requests.foldl
    (fun (acc : List String × Nat) _ =>
      (acc.1 ++ [toString (acc.2 + 1)], acc.2 + 1))
    ([], 0)).1

/-- The task list of a fetch result, empty on the error branch; a
statement convenience for the theorems below. -/
def exceptList {α : Type} : Except Unit (List α) → List α
  | .ok l => l
  | .error _ => []

/-- The status a task ends up with after a batch of reports: the raw code
of the last report addressing its id, else its prior status. -/
def finalStatus (reports : List TaskReport) (tid : Int) (s0 : Int) : Int :=
  reports.foldl
    (fun s r => if r.task.id == some tid then r.status.raw else s) s0

/-- The log rows a report contributes, empty when its task id is absent
(that case panics before inserting). -/
def insertedLogRows (r : TaskReport) : List LogRow :=
  match r.task.id with
  | some tid => reportLogRows tid r
  | none => []

/-- Shape of the statistics map after seeding and accumulation: one value
per status key, in seed order, plus the running total.  A proof-side
normal form for the hash map model. -/
def statsShape (a b c d e f g h : ℚ) : List (String × ℚ) :=
  [("todo", a), ("limbo", b), ("no_problem", c), ("warning", d),
   ("error", e), ("fatal", f), ("rerun", g), ("total", h)]

/-- The percentage entries the statistics pass appends, one per seeded
key, in seed order. -/
def percentEntries (a b c d e f g h : ℚ) : List (String × ℚ) :=
  [("todo_percent", rnd2 (100 * (a / max 1 h))),
   ("limbo_percent", rnd2 (100 * (b / max 1 h))),
   ("no_problem_percent", rnd2 (100 * (c / max 1 h))),
   ("warning_percent", rnd2 (100 * (d / max 1 h))),
   ("error_percent", rnd2 (100 * (e / max 1 h))),
   ("fatal_percent", rnd2 (100 * (f / max 1 h))),
   ("rerun_percent", rnd2 (100 * (g / max 1 h))),
   ("total_percent", rnd2 (100 * (h / max 1 h)))]

/-- The property the specification states of a finished progress report:
the bucket counts sum to the reported total, and every bucket (each
status key and the total itself) has a percentage entry equal to its
count over the total floored at one, times one hundred, rounded to two
decimals. -/
def percentagesCorrect (m : List (String × ℚ)) : Prop :=
  ((TaskStatus.keys.map fun k => (hmGet m k).getD 0).sum =
    (hmGet m "total").getD 0) ∧
  ∀ k ∈ TaskStatus.keys ++ ["total"],
    hmGet m (k ++ "_percent") =
      some (rnd2 (100 * ((hmGet m k).getD 0 /
        max 1 ((hmGet m "total").getD 0))))

/-! Section: Claim C5: limbo recovery -/

/-- Claim C5: clear_limbo_tasks sets to 0 the status of exactly those tasks
whose status was strictly greater than -1 at call time, and leaves every
task with status -1, -2, -3, -4, or any other status at most -1 (including
-5) unchanged; logs and corpora are untouched. -/
theorem clear_limbo_tasks_exact (st : TaskStoreState) :
    (clear_limbo_tasks st true).1 = .ok () ∧
    (clear_limbo_tasks st true).2.tasks =
      st.tasks.map (fun t => if -1 < t.status then { t with status := 0 } else t) ∧
    (∀ t ∈ st.tasks, -1 < t.status →
      { t with status := 0 } ∈ (clear_limbo_tasks st true).2.tasks) ∧
    (∀ t ∈ st.tasks, t.status ≤ -1 → t ∈ (clear_limbo_tasks st true).2.tasks) ∧
    (clear_limbo_tasks st true).2.logs = st.logs ∧
    (clear_limbo_tasks st true).2.corpora = st.corpora := by
  refine ⟨rfl, rfl, ?_, ?_, rfl, rfl⟩
  · intro t ht hgt
    refine List.mem_map.mpr ⟨t, ht, ?_⟩
    simp [clear_limbo_tasks, TaskStatus.raw, hgt]
  · intro t ht hle
    refine List.mem_map.mpr ⟨t, ht, ?_⟩
    have : ¬ (TaskStatus.NoProblem.raw < t.status) := by
      simp only [TaskStatus.raw]
      omega
    simp [clear_limbo_tasks, this]

/-- Claim C5 witness: the exactness statement evaluated on a store holding
one claimed, one queued, one terminal and one requeued task. -/
theorem clear_limbo_tasks_exact_witness :
    (clear_limbo_tasks ⟨[⟨1, 1, 1, "a", 17⟩, ⟨2, 1, 1, "b", 0⟩,
        ⟨3, 1, 1, "c", -3⟩, ⟨4, 1, 1, "d", -5⟩], [], []⟩ true).1 = .ok () ∧
    (clear_limbo_tasks ⟨[⟨1, 1, 1, "a", 17⟩, ⟨2, 1, 1, "b", 0⟩,
        ⟨3, 1, 1, "c", -3⟩, ⟨4, 1, 1, "d", -5⟩], [], []⟩ true).2.tasks =
      ([⟨1, 1, 1, "a", 17⟩, ⟨2, 1, 1, "b", 0⟩,
        ⟨3, 1, 1, "c", -3⟩, ⟨4, 1, 1, "d", -5⟩] : List TaskRow).map
        (fun t => if -1 < t.status then { t with status := 0 } else t) ∧
    (∀ t ∈ ([⟨1, 1, 1, "a", 17⟩, ⟨2, 1, 1, "b", 0⟩,
        ⟨3, 1, 1, "c", -3⟩, ⟨4, 1, 1, "d", -5⟩] : List TaskRow),
      -1 < t.status →
        { t with status := 0 } ∈ (clear_limbo_tasks ⟨[⟨1, 1, 1, "a", 17⟩,
          ⟨2, 1, 1, "b", 0⟩, ⟨3, 1, 1, "c", -3⟩, ⟨4, 1, 1, "d", -5⟩], [], []⟩
          true).2.tasks) ∧
    (∀ t ∈ ([⟨1, 1, 1, "a", 17⟩, ⟨2, 1, 1, "b", 0⟩,
        ⟨3, 1, 1, "c", -3⟩, ⟨4, 1, 1, "d", -5⟩] : List TaskRow),
      t.status ≤ -1 →
        t ∈ (clear_limbo_tasks ⟨[⟨1, 1, 1, "a", 17⟩, ⟨2, 1, 1, "b", 0⟩,
          ⟨3, 1, 1, "c", -3⟩, ⟨4, 1, 1, "d", -5⟩], [], []⟩ true).2.tasks) ∧
    (clear_limbo_tasks ⟨[⟨1, 1, 1, "a", 17⟩, ⟨2, 1, 1, "b", 0⟩,
        ⟨3, 1, 1, "c", -3⟩, ⟨4, 1, 1, "d", -5⟩], [], []⟩ true).2.logs = [] ∧
    (clear_limbo_tasks ⟨[⟨1, 1, 1, "a", 17⟩, ⟨2, 1, 1, "b", 0⟩,
        ⟨3, 1, 1, "c", -3⟩, ⟨4, 1, 1, "d", -5⟩], [], []⟩ true).2.corpora = [] :=
  clear_limbo_tasks_exact ⟨[⟨1, 1, 1, "a", 17⟩, ⟨2, 1, 1, "b", 0⟩,
    ⟨3, 1, 1, "c", -3⟩, ⟨4, 1, 1, "d", -5⟩], [], []⟩

/-! Section: Claim C8: the dispatch ventilator -/

/-- Claim C8 (code evaluation): the ventilator loop answers each work
request with the decimal string of its running request counter; the reply
carries no entry path or task metadata, consults no task store (the loop
takes none as input), and has no distinguished no-work form. -/
theorem ventilator_stub_reply :
    ventilator_replies ["work request"] = ["1"] ∧
    ventilator_replies ["work request", "another request"] = ["1", "2"] :=
  ⟨rfl, rfl⟩

/-! Section: Claim C1: fetch_tasks -/

/-- Claim C1 (amended): fetch_tasks returns at most lim tasks, each of which
had status 0 for the requested service immediately before the call; after
the call every returned task's status equals the one shared freshly drawn
16-bit tag, and that tag is positive whenever the random draw is nonzero
modulo 2 to the 16 (the source draws a u16, so a zero draw yields tag 0);
a service without an id yields an empty Ok result, not an error. -/
theorem fetch_tasks_spec (st : TaskStoreState) (svc : Service)
    (lim markDraw : Nat) :
    (svc.id = none → ∀ sql, fetch_tasks st svc lim markDraw sql = (.ok [], st)) ∧
    (∀ sid, svc.id = some sid →
      ∃ ret st', fetch_tasks st svc lim markDraw .ok = (.ok ret, st') ∧
        ret.length ≤ lim ∧
        (∀ u ∈ ret, u.status = ((markDraw % 65536 : Nat) : Int) ∧
          ∃ t ∈ st.tasks, u.id = some t.taskid ∧ t.status = 0 ∧
            t.serviceid = sid ∧ u.entry = t.entry) ∧
        (markDraw % 65536 ≠ 0 → ∀ u ∈ ret, 0 < u.status)) := by
  constructor
  · intro hnone sql
    simp [fetch_tasks, hnone]
  · intro sid hsid
    simp only [fetch_tasks, hsid]
    refine ⟨_, _, rfl, ?_, ?_, ?_⟩
    · simp
    · intro u hu
      obtain ⟨t, ht, rfl⟩ := List.mem_map.mp hu
      refine ⟨rfl, t, ?_, rfl, ?_, ?_, rfl⟩
      · exact List.mem_of_mem_filter (List.take_subset _ _ ht)
      · have := List.of_mem_filter (List.take_subset _ _ ht)
        simp only [Bool.and_eq_true, beq_iff_eq] at this
        simpa [TaskStatus.raw] using this.2
      · have := List.of_mem_filter (List.take_subset _ _ ht)
        simp only [Bool.and_eq_true, beq_iff_eq] at this
        exact this.1
    · intro hnz u hu
      obtain ⟨t, ht, rfl⟩ := List.mem_map.mp hu
      have h1 : 0 < markDraw % 65536 := Nat.pos_of_ne_zero hnz
      show (0 : ℤ) < ((markDraw % 65536 : ℕ) : ℤ)
      exact_mod_cast h1

/-- Claim C1 witness: the amended statement at a store with one queued task,
limit 5 and draw 7. -/
theorem fetch_tasks_spec_witness :
    ∃ ret st',
      fetch_tasks ⟨[⟨1, 1, 1, "entry.tex", 0⟩], [], []⟩
        ⟨some 1, "svc", 1, "tex", "tex", none, true⟩ 5 7 .ok = (.ok ret, st') ∧
      ret.length ≤ 5 ∧
      (∀ u ∈ ret, u.status = ((7 % 65536 : Nat) : Int) ∧
        ∃ t ∈ ([⟨1, 1, 1, "entry.tex", 0⟩] : List TaskRow),
          u.id = some t.taskid ∧ t.status = 0 ∧ t.serviceid = 1 ∧
            u.entry = t.entry) ∧
      (7 % 65536 ≠ 0 → ∀ u ∈ ret, 0 < u.status) :=
  (fetch_tasks_spec ⟨[⟨1, 1, 1, "entry.tex", 0⟩], [], []⟩
    ⟨some 1, "svc", 1, "tex", "tex", none, true⟩ 5 7).2 1 rfl

/-- Claim C1 counterexample: when the 16-bit draw is 0, fetch_tasks hands
back a claimed task whose new status is 0 rather than a positive tag. -/
theorem fetch_tasks_zero_tag_counterexample :
    (fetch_tasks ⟨[⟨1, 1, 1, "entry.tex", 0⟩], [], []⟩
        ⟨some 1, "svc", 1, "tex", "tex", none, true⟩ 5 0 .ok).1 =
      .ok [{ id := some 1, entry := "entry.tex", serviceid := 1,
             corpusid := 1, status := 0 }] ∧
    ¬ (∀ u ∈ (match (fetch_tasks ⟨[⟨1, 1, 1, "entry.tex", 0⟩], [], []⟩
        ⟨some 1, "svc", 1, "tex", "tex", none, true⟩ 5 0 .ok).1 with
        | .ok l => l
        | .error _ => ([] : List Task)), 0 < u.status) := by
  refine ⟨rfl, ?_⟩
  intro h
  have := h { id := some 1, entry := "entry.tex", serviceid := 1,
              corpusid := 1, status := 0 } (by decide)
  exact absurd this (by decide)

/-! Section: Claim C9: requeued tasks are invisible to dispatch and recovery -/

/-- Claim C9 (amended): a task whose status is -5 is invisible to dispatch
and recovery: fetch_tasks never returns it and leaves it unchanged (task
ids are assumed distinct, as the primary key guarantees), and
clear_limbo_tasks leaves it unchanged; mark_done, however, updates a
report's task by id regardless of its current status, so completion
reports can still change a requeued task. -/
theorem requeued_invisible_to_dispatch (st : TaskStoreState) (svc : Service)
    (lim markDraw : Nat) (t : TaskRow)
    (hnodup : (st.tasks.map fun r => r.taskid).Nodup)
    (ht : t ∈ st.tasks) (h5 : t.status = -5) :
    (∀ u ∈ exceptList (fetch_tasks st svc lim markDraw .ok).1,
      u.id ≠ some t.taskid) ∧
    t ∈ (fetch_tasks st svc lim markDraw .ok).2.tasks ∧
    t ∈ (clear_limbo_tasks st true).2.tasks := by
  have hinj := List.inj_on_of_nodup_map hnodup
  have hclear : t ∈ (clear_limbo_tasks st true).2.tasks := by
    refine List.mem_map.mpr ⟨t, ht, ?_⟩
    have : ¬ (TaskStatus.NoProblem.raw < t.status) := by
      simp only [TaskStatus.raw]
      omega
    simp [this]
  cases hsvc : svc.id with
  | none =>
    refine ⟨?_, ?_, hclear⟩ <;> simp [fetch_tasks, hsvc, exceptList, ht]
  | some sid =>
    have hsel : ∀ t0 ∈ (st.tasks.filter fun r =>
        r.serviceid == sid && r.status == TaskStatus.TODO.raw).take lim,
        t0.taskid ≠ t.taskid := by
      intro t0 ht0 habs
      have hmem : t0 ∈ st.tasks :=
        List.mem_of_mem_filter (List.take_subset _ _ ht0)
      have hcond := List.of_mem_filter (List.take_subset _ _ ht0)
      simp only [Bool.and_eq_true, beq_iff_eq] at hcond
      have : t0 = t := hinj hmem ht habs
      rw [this] at hcond
      rw [h5] at hcond
      exact absurd hcond.2 (by decide)
    refine ⟨?_, ?_, hclear⟩
    · intro u hu habs
      simp only [fetch_tasks, hsvc, exceptList] at hu
      obtain ⟨t0, ht0, rfl⟩ := List.mem_map.mp hu
      simp only [Option.some.injEq] at habs
      exact hsel t0 ht0 habs
    · simp only [fetch_tasks, hsvc]
      refine List.mem_map.mpr ⟨t, ht, ?_⟩
      rw [if_neg]
      intro hcontains
      simp only [List.contains_eq_any_beq, List.any_eq_true, beq_iff_eq] at hcontains
      obtain ⟨tid, htid, heq⟩ := hcontains
      obtain ⟨t0, ht0, rfl⟩ := List.mem_map.mp htid
      exact hsel t0 ht0 heq.symm

/-- Claim C9 witness: the invisibility statement at a store holding one
requeued and one queued task. -/
theorem requeued_invisible_to_dispatch_witness :
    (∀ u ∈ exceptList (fetch_tasks
        ⟨[⟨1, 1, 1, "a.tex", -5⟩, ⟨2, 1, 1, "b.tex", 0⟩], [], []⟩
        ⟨some 1, "svc", 1, "tex", "tex", none, true⟩ 4 9 .ok).1,
      u.id ≠ some 1) ∧
    (⟨1, 1, 1, "a.tex", -5⟩ : TaskRow) ∈ (fetch_tasks
        ⟨[⟨1, 1, 1, "a.tex", -5⟩, ⟨2, 1, 1, "b.tex", 0⟩], [], []⟩
        ⟨some 1, "svc", 1, "tex", "tex", none, true⟩ 4 9 .ok).2.tasks ∧
    (⟨1, 1, 1, "a.tex", -5⟩ : TaskRow) ∈ (clear_limbo_tasks
        ⟨[⟨1, 1, 1, "a.tex", -5⟩, ⟨2, 1, 1, "b.tex", 0⟩], [], []⟩ true).2.tasks :=
  requeued_invisible_to_dispatch
    ⟨[⟨1, 1, 1, "a.tex", -5⟩, ⟨2, 1, 1, "b.tex", 0⟩], [], []⟩
    ⟨some 1, "svc", 1, "tex", "tex", none, true⟩ 4 9 ⟨1, 1, 1, "a.tex", -5⟩
    (by decide) (by decide) rfl

/-- Claim C9 counterexample: mark_done is a store operation other than
mark_rerun that changes the status of a task whose status is -5 (a stale
completion report retargets it), refuting the claim's closure clause. -/
theorem mark_done_changes_requeued_counterexample :
    mark_done ⟨[⟨1, 1, 1, "e.tex", -5⟩], [], []⟩
        [⟨⟨some 1, "e.tex", 1, 1, -5⟩, .NoProblem, []⟩] false =
      (.ok, ⟨[⟨1, 1, 1, "e.tex", -1⟩], [], []⟩) ∧
    ((-1 : Int) ≠ -5) :=
  ⟨rfl, by decide⟩

/-! Section: Claim C10: id preconditions of the selector operations -/

/-- Claim C10 (amended): mark_rerun panics whenever either id is missing;
progress_report panics on a missing id once its statement has been
prepared; task_report panics on a missing id when a severity other than
no_problem is given (its count statement's arguments unwrap the ids, and a
failing prepare of that statement panics first anyway), and when severity
no_problem is given with the entry statement prepared; but with no
severity it returns an empty vector without ever touching the ids. -/
theorem id_unwrap_panics (st : TaskStoreState) (c : Corpus) (s : Service)
    (sev cat what : Option String) (markDraw : Nat) (ora : Nat → Bool)
    (ora' : Nat → SqlOutcome)
    (hnone : c.id = none ∨ s.id = none) :
    mark_rerun st c s sev cat what markDraw ora = (.panicked, st) ∧
    (∀ sql, sql ≠ .prepareFail → progress_report st c s sql = none) ∧
    (∀ sevName, sevName ≠ "no_problem" →
      task_report st c s (some sevName) cat what ora' = none) ∧
    (ora' 0 ≠ .prepareFail →
      task_report st c s (some "no_problem") cat what ora' = none) ∧
    task_report st c s none cat what ora' = some [] := by
  have hids : (c.id = none ∧ s.id = none) ∨ (c.id = none ∧ (∃ y, s.id = some y))
      ∨ ((∃ x, c.id = some x) ∧ s.id = none) := by
    rcases hnone with h | h
    · cases hy : s.id with
      | none => exact Or.inl ⟨h, rfl⟩
      | some y => exact Or.inr (Or.inl ⟨h, y, rfl⟩)
    · cases hx : c.id with
      | none => exact Or.inl ⟨rfl, h⟩
      | some x => exact Or.inr (Or.inr ⟨⟨x, rfl⟩, h⟩)
  refine ⟨?_, ?_, ?_, ?_, rfl⟩
  · rcases hids with ⟨h1, h2⟩ | ⟨h1, y, h2⟩ | ⟨⟨x, h1⟩, h2⟩ <;>
      simp [mark_rerun, h1, h2]
  · intro sql hsql
    cases sql with
    | prepareFail => exact absurd rfl hsql
    | ok =>
      rcases hids with ⟨h1, h2⟩ | ⟨h1, y, h2⟩ | ⟨⟨x, h1⟩, h2⟩ <;>
        simp [progress_report, h1, h2]
    | queryFail =>
      rcases hids with ⟨h1, h2⟩ | ⟨h1, y, h2⟩ | ⟨⟨x, h1⟩, h2⟩ <;>
        simp [progress_report, h1, h2]
  · intro sevName hne
    cases h1 : ora' 1 with
    | prepareFail => simp [task_report, hne, h1]
    | ok =>
      rcases hids with ⟨ha, hb⟩ | ⟨ha, y, hb⟩ | ⟨⟨x, ha⟩, hb⟩ <;>
        simp [task_report, hne, h1, ha, hb]
    | queryFail =>
      rcases hids with ⟨ha, hb⟩ | ⟨ha, y, hb⟩ | ⟨⟨x, ha⟩, hb⟩ <;>
        simp [task_report, hne, h1, ha, hb]
  · intro h0
    cases h0' : ora' 0 with
    | prepareFail => exact absurd h0' h0
    | ok =>
      rcases hids with ⟨ha, hb⟩ | ⟨ha, y, hb⟩ | ⟨⟨x, ha⟩, hb⟩ <;>
        simp [task_report, h0', ha, hb]
    | queryFail =>
      rcases hids with ⟨ha, hb⟩ | ⟨ha, y, hb⟩ | ⟨⟨x, ha⟩, hb⟩ <;>
        simp [task_report, h0', ha, hb]

/-- Claim C10 witness: the panic behaviour at an id-less corpus against an
identified service, on an empty store. -/
theorem id_unwrap_panics_witness :
    mark_rerun ⟨[], [], []⟩ ⟨none, "p", "n", true⟩
        ⟨some 1, "s", 1, "tex", "tex", none, true⟩ none none none 7
        (fun _ => true) = (.panicked, ⟨[], [], []⟩) ∧
    (∀ sql, sql ≠ .prepareFail →
      progress_report ⟨[], [], []⟩ ⟨none, "p", "n", true⟩
        ⟨some 1, "s", 1, "tex", "tex", none, true⟩ sql = none) ∧
    (∀ sevName, sevName ≠ "no_problem" →
      task_report ⟨[], [], []⟩ ⟨none, "p", "n", true⟩
        ⟨some 1, "s", 1, "tex", "tex", none, true⟩ (some sevName) none none
        (fun _ => .ok) = none) ∧
    ((fun _ => SqlOutcome.ok) 0 ≠ SqlOutcome.prepareFail →
      task_report ⟨[], [], []⟩ ⟨none, "p", "n", true⟩
        ⟨some 1, "s", 1, "tex", "tex", none, true⟩ (some "no_problem")
        none none (fun _ => .ok) = none) ∧
    task_report ⟨[], [], []⟩ ⟨none, "p", "n", true⟩
      ⟨some 1, "s", 1, "tex", "tex", none, true⟩ none none none
      (fun _ => .ok) = some [] :=
  id_unwrap_panics ⟨[], [], []⟩ ⟨none, "p", "n", true⟩
    ⟨some 1, "s", 1, "tex", "tex", none, true⟩ none none none 7
    (fun _ => true) (fun _ => .ok) (Or.inl rfl)

/-- Claim C10 counterexample: task_report with both ids missing and no
severity filter returns an empty vector instead of panicking, so the three
operations do not uniformly panic on a missing id. -/
theorem task_report_no_panic_counterexample :
    (⟨none, "p", "n", true⟩ : Corpus).id = none ∧
    (⟨none, "s", 1, "tex", "tex", none, true⟩ : Service).id = none ∧
    task_report ⟨[], [], []⟩ ⟨none, "p", "n", true⟩
      ⟨none, "s", 1, "tex", "tex", none, true⟩ none none none
      (fun _ => .ok) = some [] :=
  ⟨rfl, rfl, rfl⟩

/-! Section: Claim C3: rerun is not transactional -/

/-- Claim C3 (amended): mark_rerun runs its three statements without an
enclosing transaction, each committing on its own; if statement k fails
the writes of the statements before k remain visible: a phase two or
phase three failure leaves the selected tasks tagged with the ephemeral
mark (and, after phase two, their logs deleted); only a phase one failure
leaves the state unchanged. -/
theorem mark_rerun_autocommit (st : TaskStoreState) (corpus : Corpus)
    (service : Service) (sev cat what : Option String) (markDraw : Nat)
    (ora : Nat → Bool) (cid sid : Int)
    (hc : corpus.id = some cid) (hs : service.id = some sid) :
    (ora 0 = false →
      mark_rerun st corpus service sev cat what markDraw ora = (.dberr, st)) ∧
    (ora 0 = true → ora 1 = false →
      mark_rerun st corpus service sev cat what markDraw ora =
        (.dberr, mark_rerun_phase1 st cid sid sev cat what
          (-((markDraw % 65536 : Nat) : Int)))) ∧
    (ora 0 = true → ora 1 = true → ora 2 = false →
      mark_rerun st corpus service sev cat what markDraw ora =
        (.dberr, mark_rerun_phase2
          (mark_rerun_phase1 st cid sid sev cat what
            (-((markDraw % 65536 : Nat) : Int))) cid sid
          (-((markDraw % 65536 : Nat) : Int)))) ∧
    (ora 0 = true → ora 1 = true → ora 2 = true →
      mark_rerun st corpus service sev cat what markDraw ora =
        (.ok, mark_rerun_phase3 (mark_rerun_phase2
          (mark_rerun_phase1 st cid sid sev cat what
            (-((markDraw % 65536 : Nat) : Int))) cid sid
          (-((markDraw % 65536 : Nat) : Int))) cid sid
          (-((markDraw % 65536 : Nat) : Int)))) := by
  refine ⟨?_, ?_, ?_, ?_⟩ <;> intros <;> simp [mark_rerun, hc, hs, *]

/-- Claim C3 witness: the phase decomposition at a one-task store with a
phase two failure: the error return leaves phase one's write applied. -/
theorem mark_rerun_autocommit_witness :
    mark_rerun ⟨[⟨1, 1, 1, "e.tex", -1⟩], [⟨1, "error", "c", "w", "d"⟩], []⟩
        ⟨some 1, "p", "n", true⟩ ⟨some 1, "s", 1, "tex", "tex", none, true⟩
        none none none 7 (fun n => n != 1) =
      (.dberr, mark_rerun_phase1
        ⟨[⟨1, 1, 1, "e.tex", -1⟩], [⟨1, "error", "c", "w", "d"⟩], []⟩ 1 1
        none none none (-((7 % 65536 : Nat) : Int))) :=
  (mark_rerun_autocommit ⟨[⟨1, 1, 1, "e.tex", -1⟩], [⟨1, "error", "c", "w", "d"⟩], []⟩
    ⟨some 1, "p", "n", true⟩ ⟨some 1, "s", 1, "tex", "tex", none, true⟩
    none none none 7 (fun n => n != 1) 1 1 rfl rfl).2.1 rfl rfl

/-- Claim C3 counterexample: with the log-deletion statement failing,
mark_rerun returns an error yet its first statement's write (the ephemeral
tag on the task) remains visible: the claim's no-partial-application
property is false. -/
theorem mark_rerun_phase_failure_counterexample :
    mark_rerun ⟨[⟨1, 1, 1, "e.tex", -1⟩], [⟨1, "error", "c", "w", "d"⟩], []⟩
        ⟨some 1, "p", "n", true⟩ ⟨some 1, "s", 1, "tex", "tex", none, true⟩
        none none none 7 (fun n => n != 1) =
      (.dberr, ⟨[⟨1, 1, 1, "e.tex", -7⟩], [⟨1, "error", "c", "w", "d"⟩], []⟩) ∧
    (⟨[⟨1, 1, 1, "e.tex", -7⟩], [⟨1, "error", "c", "w", "d"⟩], []⟩ : TaskStoreState) ≠
      ⟨[⟨1, 1, 1, "e.tex", -1⟩], [⟨1, "error", "c", "w", "d"⟩], []⟩ :=
  ⟨rfl, by decide⟩

/-! Section: Claim C2: full rerun of a corpus/service pair -/

/-- With no severity filter, the three rerun phases amount to setting every
task of the pair to -5. -/
lemma rerun_none_pipeline_tasks (st : TaskStoreState) (cid sid mark : Int) :
    (mark_rerun_phase3 (mark_rerun_phase2
        (mark_rerun_phase1 st cid sid none none none mark) cid sid mark)
      cid sid mark).tasks =
    st.tasks.map fun t =>
      if t.corpusid == cid && t.serviceid == sid
      then { t with status := -5 } else t := by
  simp only [mark_rerun_phase1, mark_rerun_phase2, mark_rerun_phase3,
    rerunSelects, List.map_map]
  apply List.map_congr_left
  intro t _
  cases hA : (t.corpusid == cid) <;> cases hB : (t.serviceid == sid) <;>
    simp [Function.comp, hA, hB]

/-- With no severity filter, the rerun pipeline deletes exactly the log
rows of the pair's tasks. -/
lemma rerun_none_pipeline_logs (st : TaskStoreState) (cid sid mark : Int) :
    (mark_rerun_phase3 (mark_rerun_phase2
        (mark_rerun_phase1 st cid sid none none none mark) cid sid mark)
      cid sid mark).logs =
    st.logs.filter fun l =>
      !(st.tasks.any fun t =>
        t.taskid == l.taskid && t.corpusid == cid && t.serviceid == sid) := by
  simp only [mark_rerun_phase1, mark_rerun_phase2, mark_rerun_phase3,
    rerunSelects]
  apply List.filter_congr
  intro l _
  congr 1
  simp only [List.any_map]
  congr 1
  funext t
  cases hA : (t.corpusid == cid) <;> cases hB : (t.serviceid == sid) <;>
    simp [Function.comp, hA, hB]

/-- Claim C2: after a successful mark_rerun over a whole corpus/service
pair (all selectors omitted), no task of the pair has a terminal status,
every task of the pair that existed before the call now has status -5, and
every log row that belonged to a task of the pair is gone; this holds for
every random draw, including draws colliding with reserved codes, because
the first phase retags every task of the pair. -/
theorem mark_rerun_requeues_all (st : TaskStoreState) (corpus : Corpus)
    (service : Service) (markDraw : Nat) (cid sid : Int)
    (hc : corpus.id = some cid) (hs : service.id = some sid) :
    ∃ st', mark_rerun st corpus service none none none markDraw
        (fun _ => true) = (.ok, st') ∧
      (∀ t ∈ st'.tasks, t.corpusid = cid → t.serviceid = sid →
        t.status = -5) ∧
      (∀ t ∈ st'.tasks, t.corpusid = cid → t.serviceid = sid →
        t.status ∉ ([-1, -2, -3, -4] : List Int)) ∧
      (∀ t ∈ st.tasks, t.corpusid = cid → t.serviceid = sid →
        ∃ t' ∈ st'.tasks, t'.taskid = t.taskid ∧ t'.status = -5) ∧
      (∀ l ∈ st'.logs, ∀ t ∈ st.tasks, t.corpusid = cid → t.serviceid = sid →
        l.taskid ≠ t.taskid) := by
  refine ⟨mark_rerun_phase3 (mark_rerun_phase2
      (mark_rerun_phase1 st cid sid none none none
        (-((markDraw % 65536 : Nat) : Int))) cid sid
      (-((markDraw % 65536 : Nat) : Int))) cid sid
      (-((markDraw % 65536 : Nat) : Int)), ?_, ?_, ?_, ?_, ?_⟩
  · simp [mark_rerun, hc, hs]
  · rw [rerun_none_pipeline_tasks]
    intro t htm hA hB
    obtain ⟨t0, ht0, rfl⟩ := List.mem_map.mp htm
    cases h0 : (t0.corpusid == cid && t0.serviceid == sid) with
    | true => simp [h0]
    | false =>
      simp [h0] at hA hB
      have htrue : (t0.corpusid == cid && t0.serviceid == sid) = true := by
        simp [hA, hB]
      rw [htrue] at h0
      exact Bool.noConfusion h0
  · rw [rerun_none_pipeline_tasks]
    intro t htm hA hB
    obtain ⟨t0, ht0, rfl⟩ := List.mem_map.mp htm
    cases h0 : (t0.corpusid == cid && t0.serviceid == sid) with
    | true =>
      simp only [h0, if_pos]
      decide
    | false =>
      simp [h0] at hA hB
      have htrue : (t0.corpusid == cid && t0.serviceid == sid) = true := by
        simp [hA, hB]
      rw [htrue] at h0
      exact Bool.noConfusion h0
  · rw [rerun_none_pipeline_tasks]
    intro t ht hA hB
    refine ⟨{ t with status := -5 }, List.mem_map.mpr ⟨t, ht, ?_⟩, rfl, rfl⟩
    rw [if_pos (show (t.corpusid == cid && t.serviceid == sid) = true by
      simp [hA, hB])]
  · rw [rerun_none_pipeline_logs]
    intro l hl t ht hA hB habs
    have hcond := List.of_mem_filter hl
    rw [Bool.not_eq_true'] at hcond
    rw [List.any_eq_false] at hcond
    exact absurd (show (t.taskid == l.taskid && t.corpusid == cid
      && t.serviceid == sid) = true by simp [hA, hB, habs]) (hcond t ht)

/-- Claim C2 witness: the full-requeue statement on a store with tasks of
the pair in every terminal state plus a foreign task, and log rows for
both. -/
theorem mark_rerun_requeues_all_witness :
    ∃ st', mark_rerun
        ⟨[⟨1, 2, 3, "a.tex", -1⟩, ⟨2, 2, 3, "b.tex", -2⟩,
          ⟨3, 2, 3, "c.tex", -3⟩, ⟨4, 2, 3, "d.tex", -4⟩,
          ⟨5, 9, 9, "z.tex", -3⟩],
         [⟨3, "error", "cat", "w", "d"⟩, ⟨4, "fatal", "cat", "w", "d"⟩,
          ⟨5, "error", "cat", "w", "d"⟩], []⟩
        ⟨some 3, "p", "n", true⟩ ⟨some 2, "s", 1, "tex", "tex", none, true⟩
        none none none 12345 (fun _ => true) = (.ok, st') ∧
      (∀ t ∈ st'.tasks, t.corpusid = 3 → t.serviceid = 2 →
        t.status = -5) ∧
      (∀ t ∈ st'.tasks, t.corpusid = 3 → t.serviceid = 2 →
        t.status ∉ ([-1, -2, -3, -4] : List Int)) ∧
      (∀ t ∈ ([⟨1, 2, 3, "a.tex", -1⟩, ⟨2, 2, 3, "b.tex", -2⟩,
          ⟨3, 2, 3, "c.tex", -3⟩, ⟨4, 2, 3, "d.tex", -4⟩,
          ⟨5, 9, 9, "z.tex", -3⟩] : List TaskRow),
        t.corpusid = 3 → t.serviceid = 2 →
        ∃ t' ∈ st'.tasks, t'.taskid = t.taskid ∧ t'.status = -5) ∧
      (∀ l ∈ st'.logs, ∀ t ∈ ([⟨1, 2, 3, "a.tex", -1⟩, ⟨2, 2, 3, "b.tex", -2⟩,
          ⟨3, 2, 3, "c.tex", -3⟩, ⟨4, 2, 3, "d.tex", -4⟩,
          ⟨5, 9, 9, "z.tex", -3⟩] : List TaskRow),
        t.corpusid = 3 → t.serviceid = 2 → l.taskid ≠ t.taskid) :=
  mark_rerun_requeues_all
    ⟨[⟨1, 2, 3, "a.tex", -1⟩, ⟨2, 2, 3, "b.tex", -2⟩,
      ⟨3, 2, 3, "c.tex", -3⟩, ⟨4, 2, 3, "d.tex", -4⟩,
      ⟨5, 9, 9, "z.tex", -3⟩],
     [⟨3, "error", "cat", "w", "d"⟩, ⟨4, "fatal", "cat", "w", "d"⟩,
      ⟨5, "error", "cat", "w", "d"⟩], []⟩
    ⟨some 3, "p", "n", true⟩ ⟨some 2, "s", 1, "tex", "tex", none, true⟩
    12345 3 2 rfl rfl

/-! Section: Claim C4: mark_done -/

/-- Unfolding lemma for finalStatus. -/
lemma finalStatus_cons (r : TaskReport) (rs : List TaskReport)
    (tid s : Int) :
    finalStatus (r :: rs) tid s =
      finalStatus rs tid
        (if r.task.id == some tid then r.status.raw else s) := rfl

/-- A batch whose reports all miss a task id leaves its status alone. -/
lemma finalStatus_of_not_mem (rs : List TaskReport) (tid s : Int)
    (h : ∀ r ∈ rs, r.task.id ≠ some tid) :
    finalStatus rs tid s = s := by
  induction rs generalizing s with
  | nil => rfl
  | cons a rs ih =>
    rw [finalStatus_cons]
    have ha : (a.task.id == some tid) = false :=
      beq_eq_false_iff_ne.mpr (h a (List.mem_cons_self a rs))
    rw [ha]
    simp only [Bool.false_eq_true, if_false]
    exact ih s fun r hr => h r (List.mem_cons_of_mem a hr)

/-- With pairwise distinct report ids, the final status of a reported task
is exactly its report's code. -/
lemma finalStatus_eq_of_mem (reports : List TaskReport) (r : TaskReport)
    (tid s : Int) (hmem : r ∈ reports) (hid : r.task.id = some tid)
    (hnd : (reports.map fun r' => r'.task.id).Nodup) :
    finalStatus reports tid s = r.status.raw := by
  induction reports generalizing s with
  | nil => cases hmem
  | cons a rs ih =>
    rw [List.map_cons, List.nodup_cons] at hnd
    rcases List.mem_cons.mp hmem with rfl | hmem'
    · rw [finalStatus_cons]
      have ha : (r.task.id == some tid) = true := by
        rw [hid]
        exact beq_self_eq_true _
      rw [ha]
      simp only [if_true]
      refine finalStatus_of_not_mem rs tid _ ?_
      intro r' hr' habs
      exact hnd.1 (by
        rw [hid, ← habs]
        exact List.mem_map.mpr ⟨r', hr', rfl⟩)
    · rw [finalStatus_cons]
      have ha : (a.task.id == some tid) = false := by
        rw [beq_eq_false_iff_ne]
        intro habs
        refine hnd.1 ?_
        rw [habs, ← hid]
        exact List.mem_map.mpr ⟨r, hmem', rfl⟩
      rw [ha]
      simp only [Bool.false_eq_true, if_false]
      exact ih _ hmem' hnd.2

/-- The full characterization of a successful mark_done application. -/
lemma mark_done_apply_eq (st : TaskStoreState) (reports : List TaskReport)
    (hids : ∀ r ∈ reports, r.task.id ≠ none) :
    mark_done_apply st reports = some
      { tasks := st.tasks.map fun t =>
          { t with status := finalStatus reports t.taskid t.status },
        logs := st.logs ++ reports.flatMap insertedLogRows,
        corpora := st.corpora } := by
  induction reports generalizing st with
  | nil =>
    have h1 : (st.tasks.map fun t =>
        { t with status := finalStatus [] t.taskid t.status }) = st.tasks := by
      conv_rhs => rw [← List.map_id st.tasks]
      exact List.map_congr_left fun t _ => rfl
    simp [mark_done_apply, h1]
  | cons r rs ih =>
    cases hrid : r.task.id with
    | none => exact absurd hrid (hids r (List.mem_cons_self r rs))
    | some tid =>
      have step : mark_done_apply st (r :: rs) = mark_done_apply
          { tasks := st.tasks.map fun t =>
              if t.taskid == tid then { t with status := r.status.raw } else t,
            logs := st.logs ++ reportLogRows tid r,
            corpora := st.corpora } rs := by
        simp [mark_done_apply, mark_done_report, hrid]
      rw [step, ih _ fun r' hr' => hids r' (List.mem_cons_of_mem r hr')]
      congr 1
      refine TaskStoreState.mk.injEq _ _ _ _ _ _ |>.mpr ⟨?_, ?_, rfl⟩
      · rw [List.map_map]
        apply List.map_congr_left
        intro t _
        simp only [Function.comp]
        cases h : (t.taskid == tid) with
        | true =>
          have htid : t.taskid = tid := beq_iff_eq.mp h
          rw [finalStatus_cons]
          have : (r.task.id == some t.taskid) = true := by
            rw [hrid, htid]
            exact beq_self_eq_true _
          rw [this]
          simp [h]
        | false =>
          have htid : t.taskid ≠ tid := by
            intro habs
            rw [habs] at h
            rw [beq_self_eq_true] at h
            exact Bool.noConfusion h
          rw [finalStatus_cons]
          have : (r.task.id == some t.taskid) = false := by
            rw [hrid, beq_eq_false_iff_ne]
            intro habs
            exact htid (Option.some.inj habs).symm
          rw [this]
          simp [h]
      · simp [List.flatMap_cons, insertedLogRows, hrid, List.append_assoc]

/-- One report inserts exactly one log row per message surviving the
info/status filter. -/
lemma insertedLogRows_length (r : TaskReport) (h : r.task.id ≠ none) :
    (insertedLogRows r).length = (r.messages.filter keptMessage).length := by
  cases hrid : r.task.id with
  | none => exact absurd hrid h
  | some tid => simp [insertedLogRows, hrid, reportLogRows]

/-- The batch inserts exactly the sum of the per-report kept-message
counts. -/
lemma flatMap_insertedLogRows_length (reports : List TaskReport)
    (hids : ∀ r ∈ reports, r.task.id ≠ none) :
    (reports.flatMap insertedLogRows).length =
      (reports.map fun r => (r.messages.filter keptMessage).length).sum := by
  induction reports with
  | nil => rfl
  | cons r rs ih =>
    rw [List.flatMap_cons, List.length_append,
      insertedLogRows_length r (hids r (List.mem_cons_self r rs)),
      List.map_cons, List.sum_cons,
      ih fun r' hr' => hids r' (List.mem_cons_of_mem r hr')]

/-- Claim C4: on a batch of reports whose task ids are present, mark_done
appends, per report, exactly one log row per attached message whose
severity is neither info nor status (dropping info and status messages),
sets each reported task's status to its report's code (when the report ids
are pairwise distinct), and commits as one transaction: any failure
returns an error with the state unchanged. -/
theorem mark_done_spec (st : TaskStoreState) (reports : List TaskReport)
    (hids : ∀ r ∈ reports, r.task.id ≠ none) :
    ∃ st', mark_done st reports false = (.ok, st') ∧
      st'.logs = st.logs ++ reports.flatMap insertedLogRows ∧
      st'.logs.length = st.logs.length +
        ((reports.map fun r => (r.messages.filter keptMessage).length).sum) ∧
      ((reports.map fun r => r.task.id).Nodup →
        ∀ r ∈ reports, ∀ t ∈ st'.tasks, r.task.id = some t.taskid →
          t.status = r.status.raw) ∧
      mark_done st reports true = (.dberr, st) := by
  refine ⟨TaskStoreState.mk
    (st.tasks.map (fun t =>
      { t with status := finalStatus reports t.taskid t.status }))
    (st.logs ++ reports.flatMap insertedLogRows) st.corpora,
    ?_, rfl, ?_, ?_, rfl⟩
  · simp [mark_done, mark_done_apply_eq st reports hids]
  · rw [List.length_append, flatMap_insertedLogRows_length reports hids]
  · intro hnd r hr t htm hid
    obtain ⟨t0, ht0, rfl⟩ := List.mem_map.mp htm
    exact finalStatus_eq_of_mem reports r t0.taskid t0.status hr hid hnd

/-- Claim C4 witness: the scenario of the claim: one report with terminal
status -3 carrying one error-severity and one info-severity message
against a store holding the claimed task. -/
theorem mark_done_spec_witness :
    ∃ st', mark_done ⟨[⟨7, 2, 3, "e.tex", 12⟩], [], []⟩
        [⟨⟨some 7, "e.tex", 2, 3, 12⟩, .Error,
          [⟨0, "error", "latexml", "compile", "boom"⟩,
           ⟨0, "info", "latexml", "progress", "fine"⟩]⟩] false = (.ok, st') ∧
      st'.logs = ([] : List LogRow) ++ ([⟨⟨some 7, "e.tex", 2, 3, 12⟩, TaskStatus.Error,
          [⟨0, "error", "latexml", "compile", "boom"⟩,
           ⟨0, "info", "latexml", "progress", "fine"⟩]⟩] : List TaskReport).flatMap
            insertedLogRows ∧
      st'.logs.length = List.length ([] : List LogRow) +
        ((([⟨⟨some 7, "e.tex", 2, 3, 12⟩, TaskStatus.Error,
          [⟨0, "error", "latexml", "compile", "boom"⟩,
           ⟨0, "info", "latexml", "progress", "fine"⟩]⟩] : List TaskReport).map
            fun r => (r.messages.filter keptMessage).length).sum) ∧
      ((([⟨⟨some 7, "e.tex", 2, 3, 12⟩, TaskStatus.Error,
          [⟨0, "error", "latexml", "compile", "boom"⟩,
           ⟨0, "info", "latexml", "progress", "fine"⟩]⟩] : List TaskReport).map
            fun r => r.task.id).Nodup →
        ∀ r ∈ ([⟨⟨some 7, "e.tex", 2, 3, 12⟩, TaskStatus.Error,
          [⟨0, "error", "latexml", "compile", "boom"⟩,
           ⟨0, "info", "latexml", "progress", "fine"⟩]⟩] : List TaskReport),
          ∀ t ∈ st'.tasks, r.task.id = some t.taskid →
            t.status = r.status.raw) ∧
      mark_done ⟨[⟨7, 2, 3, "e.tex", 12⟩], [], []⟩
        [⟨⟨some 7, "e.tex", 2, 3, 12⟩, .Error,
          [⟨0, "error", "latexml", "compile", "boom"⟩,
           ⟨0, "info", "latexml", "progress", "fine"⟩]⟩] true =
        (.dberr, ⟨[⟨7, 2, 3, "e.tex", 12⟩], [], []⟩) :=
  mark_done_spec ⟨[⟨7, 2, 3, "e.tex", 12⟩], [], []⟩
    [⟨⟨some 7, "e.tex", 2, 3, 12⟩, .Error,
      [⟨0, "error", "latexml", "compile", "boom"⟩,
       ⟨0, "info", "latexml", "progress", "fine"⟩]⟩]
    (fun r hr => by
      rw [List.mem_singleton] at hr
      rw [hr]
      exact Option.some_ne_none 7)

/-! Section: Claim C6: read paths degrade silently -/

/-- On the failure path the computed statistics map exists and is
zero-filled (every count and every percentage is 0). -/
lemma aux_percent_zero :
    ∃ m, aux_stats_compute_percentages progress_seed none = some m ∧
      ∀ p ∈ m, p.2 = 0 := by
  refine ⟨_, rfl, ?_⟩
  intro p hp
  fin_cases hp <;> simp [rnd2]

/-- Claim C6 (amended): corpora and progress_report degrade silently on
any statement failure (empty vector, zero-filled map respectively), and
task_report degrades to an empty vector on any query failure except one:
when a severity other than no_problem is requested and the preparation of
its internal total-count statement fails, the unwrap panics instead of
degrading. -/
theorem read_ops_degrade_silently (st : TaskStoreState) (c : Corpus)
    (s : Service) (cid sid : Int) (hc : c.id = some cid)
    (hs : s.id = some sid) (sev cat what : Option String) :
    (corpora st .prepareFail = [] ∧ corpora st .queryFail = []) ∧
    (∀ sql, sql ≠ .ok → ∃ m, progress_report st c s sql = some m ∧
      ∀ p ∈ m, p.2 = 0) ∧
    (∀ ora : Nat → SqlOutcome, ora 1 ≠ .prepareFail →
      task_report st c s sev cat what ora ≠ none) ∧
    (∀ ora : Nat → SqlOutcome, (∀ n, ora n ≠ .ok) → ora 1 ≠ .prepareFail →
      task_report st c s sev cat what ora = some []) := by
  refine ⟨⟨rfl, rfl⟩, ?_, ?_, ?_⟩
  · intro sql hsql
    cases sql with
    | ok => exact absurd rfl hsql
    | prepareFail =>
      simp only [progress_report]
      exact aux_percent_zero
    | queryFail =>
      simp only [progress_report, hc, hs]
      exact aux_percent_zero
  · intro ora h1
    rcases sev with _ | sevName
    · simp [task_report]
    · by_cases hn : sevName = "no_problem"
      · cases h0 : ora 0 <;> simp [task_report, hn, h0, hc, hs]
      · cases h1' : ora 1 with
        | prepareFail => exact absurd h1' h1
        | ok =>
          rcases cat with _ | catName
          · cases h2 : ora 2 <;> cases h3 : ora 3 <;>
              simp [task_report, hn, h1', h2, h3, hc, hs]
          · rcases what with _ | whatName
            · cases h4 : ora 4 <;> cases h5 : ora 5 <;>
                simp [task_report, hn, h1', h4, h5, hc, hs]
            · cases h6 : ora 6 <;> simp [task_report, hn, h1', h6, hc, hs]
        | queryFail =>
          rcases cat with _ | catName
          · cases h2 : ora 2 <;> cases h3 : ora 3 <;>
              simp [task_report, hn, h1', h2, h3, hc, hs]
          · rcases what with _ | whatName
            · cases h4 : ora 4 <;> cases h5 : ora 5 <;>
                simp [task_report, hn, h1', h4, h5, hc, hs]
            · cases h6 : ora 6 <;> simp [task_report, hn, h1', h6, hc, hs]
  · intro ora hall h1
    rcases sev with _ | sevName
    · simp [task_report]
    · by_cases hn : sevName = "no_problem"
      · cases h0 : ora 0 with
        | ok => exact absurd h0 (hall 0)
        | prepareFail => simp [task_report, hn, h0]
        | queryFail => simp [task_report, hn, h0, hc, hs]
      · cases h1' : ora 1 with
        | prepareFail => exact absurd h1' h1
        | ok => exact absurd h1' (hall 1)
        | queryFail =>
          rcases cat with _ | catName
          · cases h2 : ora 2 with
            | ok => exact absurd h2 (hall 2)
            | prepareFail => simp [task_report, hn, h1', h2, hc, hs]
            | queryFail => simp [task_report, hn, h1', h2, hc, hs]
          · rcases what with _ | whatName
            · cases h4 : ora 4 with
              | ok => exact absurd h4 (hall 4)
              | prepareFail => simp [task_report, hn, h1', h4, hc, hs]
              | queryFail => simp [task_report, hn, h1', h4, hc, hs]
            · cases h6 : ora 6 with
              | ok => exact absurd h6 (hall 6)
              | prepareFail => simp [task_report, hn, h1', h6, hc, hs]
              | queryFail => simp [task_report, hn, h1', h6, hc, hs]

/-- Claim C6 witness: the degradation statement at a one-task store with
an error-severity drill-down request. -/
theorem read_ops_degrade_silently_witness :
    (corpora ⟨[⟨1, 2, 3, "a.tex", -3⟩], [], []⟩ .prepareFail = [] ∧
     corpora ⟨[⟨1, 2, 3, "a.tex", -3⟩], [], []⟩ .queryFail = []) ∧
    (∀ sql, sql ≠ .ok →
      ∃ m, progress_report ⟨[⟨1, 2, 3, "a.tex", -3⟩], [], []⟩
          ⟨some 3, "p", "n", true⟩ ⟨some 2, "s", 1, "tex", "tex", none, true⟩
          sql = some m ∧ ∀ p ∈ m, p.2 = 0) ∧
    (∀ ora : Nat → SqlOutcome, ora 1 ≠ .prepareFail →
      task_report ⟨[⟨1, 2, 3, "a.tex", -3⟩], [], []⟩
        ⟨some 3, "p", "n", true⟩ ⟨some 2, "s", 1, "tex", "tex", none, true⟩
        (some "error") none none ora ≠ none) ∧
    (∀ ora : Nat → SqlOutcome, (∀ n, ora n ≠ .ok) → ora 1 ≠ .prepareFail →
      task_report ⟨[⟨1, 2, 3, "a.tex", -3⟩], [], []⟩
        ⟨some 3, "p", "n", true⟩ ⟨some 2, "s", 1, "tex", "tex", none, true⟩
        (some "error") none none ora = some []) :=
  read_ops_degrade_silently ⟨[⟨1, 2, 3, "a.tex", -3⟩], [], []⟩
    ⟨some 3, "p", "n", true⟩ ⟨some 2, "s", 1, "tex", "tex", none, true⟩
    3 2 rfl rfl (some "error") none none

/-- Claim C6 counterexample: a failing prepare of the total-count
statement makes task_report panic (abort the caller) even though both ids
are present, refuting the claim that the read paths never abort on a
query failure. -/
theorem task_report_prepare_panic_counterexample :
    task_report ⟨[], [], []⟩ ⟨some 1, "p", "n", true⟩
      ⟨some 1, "s", 1, "tex", "tex", none, true⟩ (some "error") none none
      (fun _ => .prepareFail) = none :=
  rfl

/-! Section: Claim C7: progress report percentages -/

/-- Folding one grouped row preserves the shape of the statistics map,
bumps the total by the row's count, and preserves the equality of the
bucket sum with the total. -/
lemma progress_step_shape (a b c d e f g h : ℚ) (row : Int × Int) :
    ∃ a' b' c' d' e' f' g',
      progress_step (statsShape a b c d e f g h) row =
        statsShape a' b' c' d' e' f' g' (h + (row.2 : ℚ)) ∧
      a' + b' + c' + d' + e' + f' + g' =
        a + b + c + d + e + f + g + (row.2 : ℚ) := by
  unfold progress_step
  cases hfr : TaskStatus.from_raw row.1 with
  | TODO => exact ⟨a + (row.2 : ℚ), b, c, d, e, f, g, rfl, by ring⟩
  | Limbo => exact ⟨a, b + (row.2 : ℚ), c, d, e, f, g, rfl, by ring⟩
  | NoProblem => exact ⟨a, b, c + (row.2 : ℚ), d, e, f, g, rfl, by ring⟩
  | Warning => exact ⟨a, b, c, d + (row.2 : ℚ), e, f, g, rfl, by ring⟩
  | Error => exact ⟨a, b, c, d, e + (row.2 : ℚ), f, g, rfl, by ring⟩
  | Fatal => exact ⟨a, b, c, d, e, f + (row.2 : ℚ), g, rfl, by ring⟩
  | Rerun => exact ⟨a, b, c, d, e, f, g + (row.2 : ℚ), rfl, by ring⟩

/-- Folding any row list over a well-shaped map yields a well-shaped map
whose bucket values sum to its total. -/
lemma progress_fold_shape (rows : List (Int × Int)) (a b c d e f g h : ℚ)
    (hsum : a + b + c + d + e + f + g = h) :
    ∃ a' b' c' d' e' f' g' h',
      rows.foldl progress_step (statsShape a b c d e f g h) =
        statsShape a' b' c' d' e' f' g' h' ∧
      a' + b' + c' + d' + e' + f' + g' = h' := by
  induction rows generalizing a b c d e f g h with
  | nil => exact ⟨a, b, c, d, e, f, g, h, rfl, hsum⟩
  | cons row rows ih =>
    obtain ⟨a1, b1, c1, d1, e1, f1, g1, heq, hsum1⟩ :=
      progress_step_shape a b c d e f g h row
    rw [List.foldl_cons, heq]
    exact ih a1 b1 c1 d1 e1 f1 g1 (h + (row.2 : ℚ)) (by linarith)

/-- The percentage pass on a well-shaped map appends exactly the expected
percentage entries. -/
lemma aux_percent_statsShape (a b c d e f g h : ℚ) :
    aux_stats_compute_percentages (statsShape a b c d e f g h) none =
      some (statsShape a b c d e f g h ++ percentEntries a b c d e f g h) :=
  rfl

/-- A well-shaped map with matching bucket sum, extended with its
percentage entries, satisfies the claimed percentage property. -/
lemma percentagesCorrect_shape (a b c d e f g h : ℚ)
    (hsum : a + b + c + d + e + f + g = h) :
    percentagesCorrect
      (statsShape a b c d e f g h ++ percentEntries a b c d e f g h) := by
  constructor
  · have h1 : (TaskStatus.keys.map fun k =>
        (hmGet (statsShape a b c d e f g h ++
          percentEntries a b c d e f g h) k).getD 0) =
        [a, b, c, d, e, f, g] := rfl
    have h2 : (hmGet (statsShape a b c d e f g h ++
        percentEntries a b c d e f g h) "total").getD 0 = h := rfl
    rw [h1, h2]
    simp only [List.sum_cons, List.sum_nil]
    linarith
  · intro k hk
    fin_cases hk <;> rfl

/-- Claim C7: on the success path the progress report's bucket counts sum
to the reported total, and for every bucket (each status key, and the
total itself) the map holds a percentage entry equal to one hundred times
the bucket count over the total floored at one, rounded to two
decimals. -/
theorem progress_report_percentages (st : TaskStoreState) (c : Corpus)
    (s : Service) (cid sid : Int) (hc : c.id = some cid)
    (hs : s.id = some sid) :
    ∃ m, progress_report st c s .ok = some m ∧ percentagesCorrect m := by
  obtain ⟨a, b, c', d, e, f, g, h, heq, hsum⟩ :=
    progress_fold_shape (progress_rows st sid cid) 0 0 0 0 0 0 0 0 (by ring)
  refine ⟨statsShape a b c' d e f g h ++ percentEntries a b c' d e f g h,
    ?_, percentagesCorrect_shape a b c' d e f g h hsum⟩
  simp only [progress_report, hc, hs]
  rw [show progress_seed = statsShape 0 0 0 0 0 0 0 0 from rfl, heq,
    aux_percent_statsShape]

/-- Claim C7 witness: the percentage property at a store holding four
tasks of the pair (one queued, two completed without problem, one with
error) and a foreign task. -/
theorem progress_report_percentages_witness :
    ∃ m, progress_report
        ⟨[⟨1, 2, 3, "a.tex", 0⟩, ⟨2, 2, 3, "b.tex", -1⟩,
          ⟨3, 2, 3, "c.tex", -1⟩, ⟨4, 2, 3, "d.tex", -3⟩,
          ⟨5, 9, 9, "z.tex", -4⟩], [], []⟩
        ⟨some 3, "p", "n", true⟩ ⟨some 2, "s", 1, "tex", "tex", none, true⟩
        .ok = some m ∧ percentagesCorrect m :=
  progress_report_percentages
    ⟨[⟨1, 2, 3, "a.tex", 0⟩, ⟨2, 2, 3, "b.tex", -1⟩,
      ⟨3, 2, 3, "c.tex", -1⟩, ⟨4, 2, 3, "d.tex", -3⟩,
      ⟨5, 9, 9, "z.tex", -4⟩], [], []⟩
    ⟨some 3, "p", "n", true⟩ ⟨some 2, "s", 1, "tex", "tex", none, true⟩
    3 2 rfl rfl

end Cortex
